import Mathlib

/-!
Shallow embedding of the Amlogic hardware-decoder feeding layer
(`xbmc/cores/VideoPlayer/DVDCodecs/Video/AMLCodec.cpp`).

Buffers are modelled as `List Nat` of byte values; machine-integer
truncation is written explicitly (`% 256`, `&&& 0xff`, ...).  Device
interactions (`codec_write`, `VIDIOC_DQBUF`, `codec_get_vbuf_state`) are
modelled as explicit oracle inputs.  Fallible C paths return `Option`.
-/

namespace AMLCodec

/-! ## Byte-buffer primitives

`readByte buf i` models reading `buf[i]` from a `uint8_t` buffer;
`writeAt` models an in-place `memcpy`/`memmove` into a flat buffer and
`readAt` the corresponding read of a byte range. -/

def readByte (buf : List Nat) (i : Nat) : Nat := buf.getD i 0

def readAt (buf : List Nat) (off n : Nat) : List Nat := (buf.drop off).take n

def writeAt (buf : List Nat) (off : Nat) (bytes : List Nat) : List Nat :=
  buf.take off ++ bytes ++ buf.drop (off + bytes.length)

/-! ## VP9 superframe re-packaging (`vp9_update_frame_header`, lines 1219-1355)

The source walks the trailing superframe index backwards, then rewrites the
buffer back-to-front inserting one 16-byte marker before each sub-frame. -/

/-- The 16-byte per-frame marker written at lines 1321-1336: 4-byte
big-endian `framesize` (already incremented by 4), its byte-wise
one's-complement, then the fixed tag `00 00 00 01 41 4D 4C 56` (`AMLV`).
`fs4` is the value of `framesize` after the `framesize += 4` at line 1318. -/
def amlvMarker (fs4 : Nat) : List Nat :=
  [(fs4 >>> 24) &&& 0xff, (fs4 >>> 16) &&& 0xff, (fs4 >>> 8) &&& 0xff, fs4 &&& 0xff,
   ((fs4 >>> 24) &&& 0xff) ^^^ 0xff, ((fs4 >>> 16) &&& 0xff) ^^^ 0xff,
   ((fs4 >>> 8) &&& 0xff) ^^^ 0xff, (fs4 &&& 0xff) ^^^ 0xff,
   0, 0, 0, 1, 0x41, 0x4D, 0x4C, 0x56]

/-- Inner loop of the index walk (lines 1259-1263): one little-endian
`mag`-byte size field, assembled with `size |= buf[mag_ptr] << (cur_mag*8)`. -/
def readLE (buf : List Nat) (off : Nat) : Nat → Nat
  | 0 => 0
  | m + 1 => readByte buf off ||| (readLE buf (off + 1) m <<< 8)

/-- Outer loop of the index walk (lines 1255-1273): `frame_number`
consecutive `mag`-byte size fields starting at `mag_ptr + 1`. -/
def readSizes (buf : List Nat) (off mag : Nat) : Nat → List Nat
  | 0 => []
  | n + 1 => readLE buf off mag :: readSizes buf (off + mag) mag n

/-- One iteration of the rewrite loop (lines 1309-1352) for frame index
`cur`: `memmove` the sub-frame 16 bytes past its marker slot, then write the
16-byte marker.  `oldframeoff = tframesize[cur] - size[cur]` is the sum of
the earlier sub-frame sizes; `outheaderoff = oldframeoff + cur * 16`. -/
def vp9FrameStep (sizes : List Nat) (cur : Nat) (buf : List Nat) : List Nat :=
  let framesize := sizes.getD cur 0
  let oldframeoff := (sizes.take cur).sum
  let outheaderoff := oldframeoff + cur * 16
  let moved := writeAt buf (outheaderoff + 16) (readAt buf oldframeoff framesize)
  writeAt moved outheaderoff (amlvMarker (framesize + 4))

/-- The rewrite loop runs `cur_frame` from `frame_number - 1` down to `0`. -/
def vp9Frames (sizes : List Nat) : Nat → List Nat → List Nat
  | 0, buf => buf
  | k + 1, buf => vp9Frames sizes k (vp9FrameStep sizes k buf)

/-- Common tail of `vp9_update_frame_header` from line 1284: the
`total_datasize > dsize` overflow guard (early pass-through), the
`av_grow_packet` call with `need_more = total_datasize + frame_number*16 -
dsize` (failure — modelled from the spec's description of buffer growth —
when the signed `need_more` is negative), then the rewrite loop.
`frame_number = sizes.length`. -/
def vp9Grow (buf : List Nat) (sizes : List Nat) : Option (List Nat) :=
  let dsize := buf.length
  let total := sizes.sum
  if total > dsize then some buf
  else if total + sizes.length * 16 < dsize then none
  else some (vp9Frames sizes sizes.length
    (buf ++ List.replicate (total + sizes.length * 16 - dsize) 0))

/-- `vp9_update_frame_header` (lines 1219-1355).  Superframe branch when the
last byte's top three bits are `110`; the `Wrong marker2` check at line 1247
passes the packet through unchanged, as does the overflow guard.  The
non-superframe branch (lines 1275-1282) uses a single size equal to the
whole buffer.  `some` is `PLAYER_SUCCESS` carrying the resulting packet
bytes; `none` is the `av_grow_packet` failure return. -/
def vp9_update_frame_header (buf : List Nat) : Option (List Nat) :=
  let dsize := buf.length
  let marker := readByte buf (dsize - 1)
  if marker &&& 0xe0 = 0xc0 then
    let frame_number := (marker &&& 0x7) + 1
    let mag := ((marker >>> 3) &&& 0x3) + 1
    let mag_ptr := dsize - mag * frame_number - 2
    if readByte buf mag_ptr ≠ marker then some buf
    else vp9Grow buf (readSizes buf (mag_ptr + 1) mag frame_number)
  else vp9Grow buf [dsize]

/-! ### Helper lemmas about the buffer primitives -/

lemma amlvMarker_length (fs4 : Nat) : (amlvMarker fs4).length = 16 := rfl

lemma writeAt_block (x y z c : List Nat) (off : Nat) (hoff : off = x.length)
    (h : c.length = y.length) : writeAt (x ++ y ++ z) off c = x ++ c ++ z := by
  subst hoff
  unfold writeAt
  have h1 : (x ++ y ++ z).take x.length = x := by
    rw [List.append_assoc]; exact List.take_left x _
  have h2 : (x ++ y ++ z).drop (x.length + c.length) = z := by
    rw [h, ← List.length_append x y]; exact List.drop_left _ _
  rw [h1, h2]

lemma writeAt_head (y z c : List Nat) (h : c.length = y.length) :
    writeAt (y ++ z) 0 c = c ++ z := by
  have := writeAt_block [] y z c 0 rfl h
  simpa using this

lemma writeAt_tail (x y c : List Nat) (off : Nat) (hoff : off = x.length)
    (h : c.length = y.length) : writeAt (x ++ y) off c = x ++ c := by
  have := writeAt_block x y [] c off hoff h
  simpa using this

lemma readAt_block (x y z : List Nat) (off n : Nat) (hoff : off = x.length)
    (hn : n = y.length) : readAt (x ++ y ++ z) off n = y := by
  subst hoff; subst hn
  unfold readAt
  rw [List.append_assoc, List.drop_left]
  exact List.take_left y z

lemma readAt_head (y z : List Nat) (n : Nat) (hn : n = y.length) :
    readAt (y ++ z) 0 n = y := by
  have := readAt_block [] y z 0 n rfl hn
  simpa using this

lemma list_decomp (l : List Nat) (a b : Nat) :
    l = l.take a ++ (l.drop a).take b ++ l.drop (a + b) := by
  rw [List.append_assoc]
  have h : l.drop (a + b) = (l.drop a).drop b := by
    rw [List.drop_drop, Nat.add_comm]
  rw [h, List.take_append_drop, List.take_append_drop]

/-- The single-frame rewrite pass (non-superframe path, or `frame_number = 1`):
the original bytes are shifted up by 16 and the marker is written at offset 0. -/
lemma vp9Frames_single (buf pad : List Nat) (hpad : pad.length = 16) :
    vp9Frames [buf.length] 1 (buf ++ pad) = amlvMarker (buf.length + 4) ++ buf := by
  rw [vp9Frames, vp9Frames]
  set n := buf.length with hn
  set buf2 := buf ++ pad with hbuf2
  have hlen2 : buf2.length = n + 16 := by rw [hbuf2, List.length_append, hpad, ← hn]
  unfold vp9FrameStep
  dsimp only
  simp only [List.getD_cons_zero, List.take_zero, List.sum_nil, Nat.zero_mul, Nat.add_zero,
    Nat.zero_add]
  have hread : readAt buf2 0 n = buf := readAt_head buf pad n hn
  rw [hread]
  have hdecomp := list_decomp buf2 16 n
  conv_lhs => rw [hdecomp]
  rw [writeAt_block _ _ _ _ _ (by simp only [List.length_take]; omega)
    (by simp only [List.length_take, List.length_drop]; rw [← hn]; omega)]
  rw [List.append_assoc]
  rw [writeAt_head _ _ _ (by simp only [amlvMarker_length, List.length_take]; omega)]
  have hdropnil : buf2.drop (16 + n) = [] := List.drop_eq_nil_of_le (by omega)
  rw [hdropnil, List.append_nil]

/-- The two-frame rewrite pass, for a grown buffer `f0 ++ f1 ++ t` whose
32-byte tail `t` holds the (dead) superframe index plus the growth padding. -/
lemma vp9Frames_two (f0 f1 t : List Nat) (ht : t.length = 32) :
    vp9Frames [f0.length, f1.length] 2 (f0 ++ f1 ++ t) =
      amlvMarker (f0.length + 4) ++ f0 ++ (amlvMarker (f1.length + 4) ++ f1) := by
  set s0 := f0.length with hs0
  set s1 := f1.length with hs1
  set buf2 := f0 ++ f1 ++ t with hbuf2
  have hlen2 : buf2.length = s0 + s1 + 32 := by
    rw [hbuf2]; simp only [List.length_append, ht, ← hs0, ← hs1]
  show vp9Frames [s0, s1] 2 buf2 = _
  rw [vp9Frames, vp9Frames, vp9Frames]
  have hsplit1 : buf2 = buf2.take (s0 + 32) ++ buf2.drop (s0 + 32) :=
    (List.take_append_drop _ _).symm
  have hlentk : (buf2.take (s0 + 32)).length = s0 + 32 := by
    rw [List.length_take]; omega
  have hlendp : (buf2.drop (s0 + 32)).length = s1 := by
    rw [List.length_drop]; omega
  have hread1 : readAt buf2 s0 s1 = f1 := readAt_block f0 f1 t s0 s1 hs0 hs1
  have hstep1 : vp9FrameStep [s0, s1] 1 buf2 =
      buf2.take (s0 + 16) ++ amlvMarker (s1 + 4) ++ f1 := by
    unfold vp9FrameStep
    dsimp only
    simp only [List.getD_cons_succ, List.getD_cons_zero, List.take_succ_cons, List.take_zero,
      List.sum_cons, List.sum_nil, Nat.add_zero, Nat.one_mul]
    rw [hread1]
    conv_lhs => rw [hsplit1]
    have hoff1 : s0 + 16 + 16 = (buf2.take (s0 + 32)).length := by rw [hlentk]
    have hc1 : f1.length = (buf2.drop (s0 + 32)).length := by rw [hlendp]
    rw [writeAt_tail _ _ _ _ hoff1 hc1]
    have hsplitB : buf2.take (s0 + 32) =
        (buf2.take (s0 + 32)).take (s0 + 16) ++ (buf2.take (s0 + 32)).drop (s0 + 16) :=
      (List.take_append_drop _ _).symm
    conv_lhs => rw [hsplitB]
    rw [writeAt_block _ _ _ _ _ (by simp only [List.length_take]; omega)
      (by simp only [amlvMarker_length, List.length_drop, List.length_take]; omega)]
    rw [List.take_take]
    have hmin : min (s0 + 16) (s0 + 32) = s0 + 16 := by omega
    rw [hmin]
  rw [hstep1]
  set buf3 := buf2.take (s0 + 16) ++ amlvMarker (s1 + 4) ++ f1 with hbuf3
  have hlen3tk : (buf2.take (s0 + 16)).length = s0 + 16 := by
    rw [List.length_take]; omega
  have hlen3 : buf3.length = s0 + s1 + 32 := by
    rw [hbuf3]
    simp only [List.length_append, hlen3tk, amlvMarker_length, ← hs1]
    omega
  have htks0 : buf2.take (s0 + 16) = f0 ++ (f1 ++ t).take 16 := by
    rw [hbuf2, List.append_assoc, List.take_append_eq_append_take]
    congr 1
    · rw [List.take_of_length_le (by omega)]
    · congr 1; omega
  have hread0 : readAt buf3 0 s0 = f0 := by
    rw [hbuf3, htks0, List.append_assoc, List.append_assoc]
    exact readAt_head f0 _ s0 hs0
  have hdrop3 : buf3.drop (16 + s0) = amlvMarker (s1 + 4) ++ f1 := by
    rw [hbuf3, List.append_assoc]
    have h16 : 16 + s0 = (buf2.take (s0 + 16)).length := by rw [hlen3tk]; omega
    rw [h16, List.drop_left]
  have hstep0 : vp9FrameStep [s0, s1] 0 buf3 =
      amlvMarker (s0 + 4) ++ f0 ++ (amlvMarker (s1 + 4) ++ f1) := by
    unfold vp9FrameStep
    dsimp only
    simp only [List.getD_cons_zero, List.take_zero, List.sum_nil, Nat.zero_mul, Nat.add_zero,
      Nat.zero_add]
    rw [hread0]
    have hdecomp := list_decomp buf3 16 s0
    conv_lhs => rw [hdecomp]
    rw [writeAt_block _ _ _ _ _ (by simp only [List.length_take]; omega)
      (by simp only [List.length_take, List.length_drop]; rw [← hs0]; omega)]
    rw [List.append_assoc]
    rw [writeAt_head _ _ _ (by simp only [amlvMarker_length, List.length_take]; omega)]
    rw [hdrop3, List.append_assoc]
  rw [hstep0]

/-! ### Claim C3 -/

/-- Claim C3 (amended): a VP9 packet whose last byte's top 3 bits are not
`110` is NOT passed through unchanged: `vp9_update_frame_header` takes the
single-frame path, grows the buffer by 16 bytes and prepends one 16-byte
AMLV marker whose length field is `data_size + 4`. -/
theorem vp9_nonsuperframe_adds_marker (buf : List Nat) (hne : buf ≠ [])
    (h : readByte buf (buf.length - 1) &&& 0xe0 ≠ 0xc0) :
    vp9_update_frame_header buf = some (amlvMarker (buf.length + 4) ++ buf) := by
  unfold vp9_update_frame_header
  dsimp only
  rw [if_neg h]
  unfold vp9Grow
  dsimp only
  simp only [List.sum_cons, List.sum_nil, Nat.add_zero, List.length_cons, List.length_nil,
    Nat.zero_add]
  rw [if_neg (lt_irrefl _)]
  rw [if_neg (by omega)]
  have h3 : buf.length + 1 * 16 - buf.length = 16 := by omega
  rw [h3]
  exact congrArg some (vp9Frames_single buf _ (by simp))

/-- Claim C3, counterexample to the claim as stated: on the one-byte
non-superframe packet `[0]` the repackager does not return the input
unchanged; it returns a 17-byte buffer. -/
theorem vp9_nonsuperframe_not_passthrough :
    vp9_update_frame_header [0] ≠ some [0] ∧
    (vp9_update_frame_header [0]).map List.length = some 17 := by decide

/-- Witness for the amended C3 theorem at the concrete input `[5]`. -/
theorem vp9_nonsuperframe_adds_marker_witness :
    ([5] : List Nat) ≠ [] ∧ readByte [5] 0 &&& 0xe0 ≠ 0xc0 ∧
    vp9_update_frame_header [5] = some (amlvMarker 5 ++ [5]) :=
  ⟨by decide, by decide, vp9_nonsuperframe_adds_marker [5] (by decide) (by decide)⟩

/-! ### Claim C7 -/

/-- Claim C7: when the per-sub-frame sizes recovered from the superframe
index sum to more than the original buffer size (`total_datasize > dsize`,
line 1284), repackaging is aborted before any rewrite: the function returns
`PLAYER_SUCCESS` with the packet bytes unmodified. -/
theorem vp9_overflow_passthrough (buf : List Nat) (marker fn mag mag_ptr : Nat)
    (hm : marker = readByte buf (buf.length - 1))
    (hsf : marker &&& 0xe0 = 0xc0)
    (hfn : fn = (marker &&& 0x7) + 1)
    (hmag : mag = ((marker >>> 3) &&& 0x3) + 1)
    (hidx : mag * fn + 2 ≤ buf.length)
    (hptr : mag_ptr = buf.length - mag * fn - 2)
    (hm2 : readByte buf mag_ptr = marker)
    (hover : (readSizes buf (mag_ptr + 1) mag fn).sum > buf.length) :
    vp9_update_frame_header buf = some buf := by
  unfold vp9_update_frame_header
  dsimp only
  rw [← hm, if_pos hsf, ← hfn, ← hmag, ← hptr]
  rw [if_neg (not_not_intro hm2)]
  unfold vp9Grow
  dsimp only
  rw [if_pos hover]

/-- Witness for C7: a frame-count-2, mag-1 superframe whose index claims two
200-byte sub-frames inside a 5-byte packet is passed through unchanged. -/
theorem vp9_overflow_passthrough_witness :
    (1 * 2 + 2 ≤ 5 ∧ readByte [7, 193, 200, 200, 193] 1 = 193 ∧
      (readSizes [7, 193, 200, 200, 193] 2 1 2).sum > 5) ∧
    vp9_update_frame_header [7, 193, 200, 200, 193] = some [7, 193, 200, 200, 193] :=
  ⟨by decide, vp9_overflow_passthrough [7, 193, 200, 200, 193] 193 2 1 1
    (by decide) (by decide) (by decide) (by decide) (by decide) (by decide)
    (by decide) (by decide)⟩

/-! ### Claim C4 -/

/-- Claim C4 (amended): for a superframe packet `f0 ++ f1 ++ index` whose
trailing marker byte `0xC1` declares `frame_count = 2`, `mag = 1`, and whose
4-byte index covers the two sub-frames exactly, the output is the two
sub-frames in order, each preceded by the 16-byte AMLV marker; the output
length is `total_datasize + 32`, i.e. the input length + 28 (the 4 index
bytes are not counted by `total_datasize`), not the input length + 32. -/
theorem vp9_superframe_two_frames (f0 f1 : List Nat) (s0 s1 : Nat)
    (h0 : f0.length = s0) (h1 : f1.length = s1) (hb0 : s0 < 256) (hb1 : s1 < 256) :
    vp9_update_frame_header (f0 ++ f1 ++ [0xC1, s0, s1, 0xC1]) =
      some (amlvMarker (s0 + 4) ++ f0 ++ (amlvMarker (s1 + 4) ++ f1)) ∧
    (amlvMarker (s0 + 4) ++ f0 ++ (amlvMarker (s1 + 4) ++ f1)).length =
      (f0 ++ f1 ++ [0xC1, s0, s1, 0xC1]).length + 28 := by
  subst h0; subst h1
  have hlen : (f0 ++ f1 ++ [0xC1, f0.length, f1.length, 0xC1]).length =
      f0.length + f1.length + 4 := by
    simp only [List.length_append, List.length_cons, List.length_nil]
  constructor
  · unfold vp9_update_frame_header
    dsimp only
    have hAB : (f0 ++ f1).length = f0.length + f1.length := List.length_append f0 f1
    have hmarker : readByte (f0 ++ f1 ++ [0xC1, f0.length, f1.length, 0xC1])
        ((f0 ++ f1 ++ [0xC1, f0.length, f1.length, 0xC1]).length - 1) = 0xC1 := by
      rw [hlen]
      unfold readByte
      rw [List.getD_append_right _ _ _ _ (by omega)]
      have hi : f0.length + f1.length + 4 - 1 - (f0 ++ f1).length = 3 := by omega
      rw [hi]
      rfl
    rw [hmarker]
    rw [if_pos (by decide : (0xC1 : Nat) &&& 0xe0 = 0xc0)]
    simp only [show ((0xC1 : Nat) &&& 0x7) + 1 = 2 from by decide,
      show (((0xC1 : Nat) >>> 3) &&& 0x3) + 1 = 1 from by decide]
    rw [hlen]
    have hptr : f0.length + f1.length + 4 - 1 * 2 - 2 = f0.length + f1.length := by omega
    rw [hptr]
    have hm2 : readByte (f0 ++ f1 ++ [0xC1, f0.length, f1.length, 0xC1])
        (f0.length + f1.length) = 0xC1 := by
      unfold readByte
      rw [List.getD_append_right _ _ _ _ (by omega)]
      have hi : f0.length + f1.length - (f0 ++ f1).length = 0 := by omega
      rw [hi]
      rfl
    rw [if_neg (not_not_intro hm2)]
    have hsz : readSizes (f0 ++ f1 ++ [0xC1, f0.length, f1.length, 0xC1])
        (f0.length + f1.length + 1) 1 2 = [f0.length, f1.length] := by
      simp only [readSizes, readLE, Nat.zero_shiftLeft, Nat.or_zero]
      unfold readByte
      rw [List.getD_append_right _ _ _ _ (by omega),
          List.getD_append_right _ _ _ _ (by omega)]
      have hi1 : f0.length + f1.length + 1 - (f0 ++ f1).length = 1 := by omega
      have hi2 : f0.length + f1.length + 1 + 1 - (f0 ++ f1).length = 2 := by omega
      rw [hi1, hi2]
      rfl
    rw [hsz]
    unfold vp9Grow
    dsimp only
    simp only [List.sum_cons, List.sum_nil, Nat.add_zero, List.length_cons, List.length_nil,
      Nat.zero_add, hlen]
    rw [if_neg (by omega)]
    rw [if_neg (by omega)]
    have hpad : f0.length + f1.length + 2 * 16 - (f0.length + f1.length + 4) = 28 := by omega
    rw [hpad]
    rw [List.append_assoc (f0 ++ f1)]
    have happ : (f0 ++ f1) ++ ([0xC1, f0.length, f1.length, 0xC1] ++ List.replicate 28 0) =
        f0 ++ f1 ++ ([0xC1, f0.length, f1.length, 0xC1] ++ List.replicate 28 0) := rfl
    rw [happ]
    exact congrArg some (vp9Frames_two f0 f1 _ (by simp))
  · simp only [List.length_append, amlvMarker_length, List.length_cons, List.length_nil]
    omega

/-- Claim C4, counterexample to the claim as stated: a 6-byte two-frame
superframe (`frame_count = 2`, `mag = 1`) is repackaged into 34 bytes, which
is input + 28, not input + 32. -/
theorem vp9_superframe_length_not_plus32 :
    (vp9_update_frame_header [0xAA, 0xBB, 0xC1, 1, 1, 0xC1]).map List.length = some 34 ∧
    (34 : Nat) ≠ 6 + 32 := by decide

/-- Witness for the amended C4 theorem at a concrete two-frame superframe. -/
theorem vp9_superframe_two_frames_witness :
    vp9_update_frame_header [0xAA, 0xBB, 0xC1, 1, 1, 0xC1] =
      some (amlvMarker 5 ++ [0xAA] ++ (amlvMarker 5 ++ [0xBB])) :=
  (vp9_superframe_two_frames [0xAA] [0xBB] 1 1 rfl rfl (by decide) (by decide)).1

/-! ## Packet feeder (`write_av_packet` lines 659-729, `CAMLCodec::AddData`
lines 2415-2552, `GetBufferLevel` lines 2607-2625)

The device write `codec_write` is modelled as an oracle trace: each call
consumes one `WriteStep` giving the returned count and the `errno == EAGAIN`
state observed after the call.  `check_in_pts` (a device PTS check-in) is
modelled as succeeding; its failure path is indistinguishable from a fatal
header-write failure for the properties below.  `none` means the trace
was exhausted before the C loop exited. -/

/-- One `codec_write` device call: returned count (negative on error) and
whether `errno` was `EAGAIN` at that point. -/
structure WriteStep where
  ret : Int
  eagain : Bool
deriving DecidableEq

/-- The `am_packet_t` fields driving the write path. -/
structure AmPacket where
  hdrSize : Nat
  dataSize : Nat
  isvalid : Bool
  newflag : Bool
deriving DecidableEq

inductive PStatus
  | success
  | wrFailed
deriving DecidableEq

/-- The header-write loop of `write_header` (lines 633-649): retry forever
on `EAGAIN`, fail on any other error, accumulate partial writes until
`len == pkt->hdr->size`. -/
def write_header_loop (hdrSize len : Nat) : List WriteStep → Option (PStatus × List WriteStep)
  | [] => none
  | w :: tr =>
    if w.ret < 0 ∨ (hdrSize : Int) - (len : Int) < w.ret then
      if ¬ w.eagain then some (.wrFailed, tr) else write_header_loop hdrSize len tr
    else
      if len + w.ret.toNat = hdrSize then some (.success, tr)
      else write_header_loop hdrSize (len + w.ret.toNat) tr

/-- `write_header` (lines 616-652): nothing to do when no header bytes are
pending.  (The WVC1 plain-start-code skip at lines 626-632 and the
`PLAYER_EMPTY_P` null-pointer returns — both treated as non-failures by the
caller, which only tests for `PLAYER_WR_FAILED` — are not tracked.) -/
def write_header (pkt : AmPacket) (tr : List WriteStep) : Option (PStatus × List WriteStep) :=
  if pkt.hdrSize > 0 then write_header_loop pkt.hdrSize 0 tr else some (.success, tr)

/-- The payload-write loop of `write_av_packet` (lines 691-726).  `size` is
the local remaining-this-call count, `len` the bytes written this call.  On
`EAGAIN` the packet stays valid, `data += len; data_size -= len`, and the
function returns `PLAYER_SUCCESS` so the caller re-invokes. -/
def write_loop (pkt : AmPacket) : Nat → Nat → List WriteStep →
    Option (PStatus × AmPacket × List WriteStep)
  | size, _, [] =>
    if size > 0 ∧ pkt.isvalid then none else some (.success, pkt, [])
  | size, len, w :: tr =>
    if size > 0 ∧ pkt.isvalid then
      if w.ret < 0 ∨ (size : Int) < w.ret then
        if ¬ w.eagain then some (.wrFailed, pkt, tr)
        else some (.success, { pkt with dataSize := pkt.dataSize - len }, tr)
      else
        if len + w.ret.toNat = pkt.dataSize then
          some (.success, { pkt with isvalid := false, dataSize := 0 }, tr)
        else if len + w.ret.toNat < pkt.dataSize then
          write_loop pkt (size - w.ret.toNat) (len + w.ret.toNat) tr
        else some (.wrFailed, pkt, tr)
    else some (.success, pkt, w :: tr)

/-- Lines 684-689: the zero-size packet is marked consumed before the loop. -/
def write_payload (pkt : AmPacket) (tr : List WriteStep) :
    Option (PStatus × AmPacket × List WriteStep) :=
  let pkt2 := if pkt.dataSize = 0 ∧ pkt.isvalid then
    { pkt with isvalid := false, dataSize := 0 } else pkt
  write_loop pkt2 pkt2.dataSize 0 tr

/-- `write_av_packet` (lines 659-729): on `newflag`, write the header first
(a header failure returns `PLAYER_WR_FAILED` before `newflag` is cleared),
then feed the payload. -/
def write_av_packet (pkt : AmPacket) (tr : List WriteStep) :
    Option (PStatus × AmPacket × List WriteStep) :=
  if pkt.newflag then
    match write_header pkt tr with
    | none => none
    | some (.wrFailed, tr') => some (.wrFailed, pkt, tr')
    | some (.success, tr') => write_payload { pkt with newflag := false } tr'
  else write_payload pkt tr

/-- The `AddData` write loop (lines 2520-2530): up to 100 iterations while
the packet is valid, breaking (without counting the iteration) on any
non-`PLAYER_SUCCESS` result.  Returns the final value of `loop`, i.e. the
number of successful `write_av_packet` calls, capped at the fuel. -/
def addDataLoop : Nat → AmPacket → List WriteStep →
    Option (Nat × AmPacket × List WriteStep)
  | 0, pkt, tr => some (0, pkt, tr)
  | fuel + 1, pkt, tr =>
    if pkt.isvalid then
      match write_av_packet pkt tr with
      | none => none
      | some (.wrFailed, pkt', tr') => some (0, pkt', tr')
      | some (.success, pkt', tr') =>
        match addDataLoop fuel pkt' tr' with
        | none => none
        | some (n, pkt'', tr'') => some (n + 1, pkt'', tr'')
    else some (0, pkt, tr)

/-- `calc_chunk_size` (lines 1795-1814): pad to a page below 4096, else to
64-byte alignment, always adding the 64-byte minimum frame padding. -/
def calc_chunk_size (size : Nat) : Nat :=
  if size < 4096 then size + (64 + (4096 - ((size + 64) % 4096)))
  else if size % 64 ≠ 0 then size + (64 + (64 - size % 64))
  else size + 64

/-- `struct buf_status` as filled by `codec_get_vbuf_state`. -/
structure BufStatus where
  data_len : Nat
  free_len : Nat
  size : Nat
deriving DecidableEq

/-- `CAMLCodec::GetBufferLevel` (lines 2607-2625); the C `float` arithmetic
is modelled over `ℚ`. -/
def GetBufferLevel (bs : BufStatus) (new_chunk : Nat) : ℚ :=
  if bs.free_len > 0 then
    if bs.size ≠ 0 then 100 / (bs.size : ℚ) * ((bs.data_len : ℚ) + (new_chunk : ℚ))
    else 0
  else 100

structure AddDataRes where
  accepted : Bool
  resets : Nat
  loops : Nat
  validAfter : Bool
  levelReady : Bool
  minLevel : ℚ
deriving DecidableEq

/-- `CAMLCodec::AddData` (lines 2415-2552).  `pktSize` is the packet size
after the one-shot `hdr_buf` prepend (lines 2443-2477) and `hdrSize` the
per-packet header installed by `set_header_info`; the packet enters the
write loop with `newflag = isvalid = 1` (lines 2479-2480).  `resets` counts
calls to `CAMLCodec::Reset` (line 2534).  The `av_grow_packet` failure
return at line 2459 (a nonzero `int` returned as `bool`, hence `accepted`)
is outside this model. -/
def AddData (opened pDataNull : Bool) (bs : BufStatus) (iSize : Nat)
    (streambuffer ready0 : Bool) (min0 : ℚ) (pktSize hdrSize : Nat)
    (tr : List WriteStep) : Option AddDataRes :=
  let chunk := calc_chunk_size iSize
  let level := GetBufferLevel bs chunk
  let ready := if ready0 then true
    else if streambuffer then decide (level > 90) else decide (level > 5)
  let minL := if ready0 then min0 else if streambuffer then (10 : ℚ) else 5
  if opened = false ∨ pDataNull = true ∨ bs.free_len = 0 ∨ level ≥ 100 then
    some ⟨false, 0, 0, false, ready, minL⟩
  else
    match addDataLoop 100 ⟨hdrSize, pktSize, true, true⟩ tr with
    | none => none
    | some (n, pkt', _) =>
      if n = 100 then some ⟨false, 1, n, pkt'.isvalid, ready, minL⟩
      else some ⟨true, 0, n, pkt'.isvalid, ready, minL⟩

/-! ### Claim C5 -/

/-- Claim C5: `GetBufferLevel` yields 100% whenever the device reports zero
free bytes, regardless of the used-byte count; and `AddData` rejects
whenever the decoder is not open, the input pointer is null, free bytes are
zero, or the computed fill level is at or above 100%. -/
theorem buffer_gate_rejects (bs : BufStatus) (new_chunk : Nat)
    (opened pDataNull streambuffer ready0 : Bool) (min0 : ℚ)
    (iSize pktSize hdrSize : Nat) (tr : List WriteStep) :
    (bs.free_len = 0 → GetBufferLevel bs new_chunk = 100) ∧
    ((opened = false ∨ pDataNull = true ∨ bs.free_len = 0 ∨
        GetBufferLevel bs (calc_chunk_size iSize) ≥ 100) →
      (AddData opened pDataNull bs iSize streambuffer ready0 min0 pktSize hdrSize tr).map
        (fun r => r.accepted) = some false) := by
  constructor
  · intro h
    unfold GetBufferLevel
    rw [h]
    simp
  · intro h
    unfold AddData
    dsimp only
    rw [if_pos h]
    rfl

/-- Witness for C5 at a device state reporting zero free bytes. -/
theorem buffer_gate_rejects_witness :
    (GetBufferLevel ⟨500, 0, 1000⟩ 0 = 100) ∧
    (AddData true false ⟨500, 0, 1000⟩ 0 false false 0 0 0 []).map
      (fun r => r.accepted) = some false := by
  have h := buffer_gate_rejects ⟨500, 0, 1000⟩ 0 true false false false 0 0 0 0 []
  exact ⟨h.1 rfl, h.2 (Or.inr (Or.inr (Or.inl rfl)))⟩

/-! ### Claim C2 -/

/-- Claim C2 (amended): within one `AddData` invocation the write loop is
bounded by 100 iterations, and `Reset` is triggered (exactly once, with the
call rejected) precisely when the loop counter reaches 100 — including the
case where the packet drains on the 100th iteration; an invocation whose
loop runs fewer than 100 iterations never triggers `Reset`. -/
theorem addData_reset_iff_bound (opened pDataNull : Bool) (bs : BufStatus)
    (iSize pktSize hdrSize : Nat) (streambuffer ready0 : Bool) (min0 : ℚ)
    (tr : List WriteStep) (r : AddDataRes)
    (h : AddData opened pDataNull bs iSize streambuffer ready0 min0 pktSize hdrSize tr
      = some r) :
    (r.resets = if r.loops = 100 then 1 else 0) ∧ (r.loops = 100 → r.accepted = false) := by
  unfold AddData at h
  dsimp only at h
  by_cases hg : opened = false ∨ pDataNull = true ∨ bs.free_len = 0 ∨
      GetBufferLevel bs (calc_chunk_size iSize) ≥ 100
  · rw [if_pos hg] at h
    injection h with h
    subst h
    exact ⟨rfl, by intro hc; simp at hc⟩
  · rw [if_neg hg] at h
    cases haux : addDataLoop 100 ⟨hdrSize, pktSize, true, true⟩ tr with
    | none => rw [haux] at h; cases h
    | some v =>
      obtain ⟨n, pkt', tr'⟩ := v
      rw [haux] at h
      dsimp only at h
      by_cases hn : n = 100
      · rw [if_pos hn] at h
        injection h with h
        subst h
        simp [hn]
      · rw [if_neg hn] at h
        injection h with h
        subst h
        simp [hn]

/-- Witness for the amended C2 theorem at a concrete rejected invocation. -/
theorem addData_reset_iff_bound_witness :
    (AddData false false ⟨0, 1, 10⟩ 0 false true 5 0 0 [] =
      some ⟨false, 0, 0, false, true, 5⟩) ∧
    ((⟨false, 0, 0, false, true, 5⟩ : AddDataRes).resets =
      if (⟨false, 0, 0, false, true, 5⟩ : AddDataRes).loops = 100 then 1 else 0) :=
  ⟨by decide,
   (addData_reset_iff_bound false false ⟨0, 1, 10⟩ 0 0 0 false true 5 []
     ⟨false, 0, 0, false, true, 5⟩ (by decide)).1⟩

/-- Claim C2, counterexample to the claim as stated: with 99 would-block
writes followed by one full write, the packet drains within the 100-iteration
bound (on its 100th and last permitted iteration, `validAfter = false`), yet
`Reset` is still triggered once and the call rejected. -/
theorem addData_drain_on_bound_still_resets :
    (AddData true false ⟨0, 100, 1000000⟩ 5 false true 5 5 0
        (List.replicate 99 ⟨-1, true⟩ ++ [⟨5, false⟩])).map
      (fun r => (r.accepted, r.resets, r.validAfter)) = some (false, 1, false) := by
  unfold AddData
  dsimp only
  rw [if_neg (by norm_num [GetBufferLevel, calc_chunk_size])]
  rw [show addDataLoop 100 ⟨0, 5, true, true⟩
      (List.replicate 99 ⟨-1, true⟩ ++ [⟨5, false⟩]) =
      some (100, ⟨0, 0, false, false⟩, []) from by decide]
  rfl

/-! ### Claim C10 -/

/-- Claim C10: once past the admission gate, `AddData` returns rejected
(`false`) exactly when the write loop used all 100 iterations; a fatal
(non-would-block) write error breaks the loop early, so it yields
`accepted = true` and is not reported to the caller. -/
theorem addData_fatal_write_accepted (bs : BufStatus) (iSize pktSize hdrSize : Nat)
    (streambuffer ready0 : Bool) (min0 : ℚ) (tr : List WriteStep) (r : AddDataRes)
    (hfree : bs.free_len ≠ 0)
    (hlv : ¬ GetBufferLevel bs (calc_chunk_size iSize) ≥ 100)
    (h : AddData true false bs iSize streambuffer ready0 min0 pktSize hdrSize tr
      = some r) :
    (r.accepted = false ↔ r.loops = 100) ∧ (r.loops < 100 → r.resets = 0) := by
  unfold AddData at h
  dsimp only at h
  rw [if_neg (by simp [hfree, hlv])] at h
  cases haux : addDataLoop 100 ⟨hdrSize, pktSize, true, true⟩ tr with
  | none => rw [haux] at h; cases h
  | some v =>
    obtain ⟨n, pkt', tr'⟩ := v
    rw [haux] at h
    dsimp only at h
    by_cases hn : n = 100
    · rw [if_pos hn] at h
      injection h with h
      subst h
      simp [hn]
    · rw [if_neg hn] at h
      injection h with h
      subst h
      simp [hn]

/-- Witness for C10: a fatal device write error on the very first payload
write still yields `accepted = true` with no `Reset`. -/
theorem addData_fatal_write_accepted_witness :
    (AddData true false ⟨0, 100, 1000000⟩ 5 false true 5 5 0 [⟨-1, false⟩] =
      some ⟨true, 0, 0, true, true, 5⟩) ∧
    (((⟨true, 0, 0, true, true, 5⟩ : AddDataRes).accepted = false ↔
      (⟨true, 0, 0, true, true, 5⟩ : AddDataRes).loops = 100)) := by
  have hadd : AddData true false ⟨0, 100, 1000000⟩ 5 false true 5 5 0 [⟨-1, false⟩] =
      some ⟨true, 0, 0, true, true, 5⟩ := by
    unfold AddData
    dsimp only
    rw [if_neg (by norm_num [GetBufferLevel, calc_chunk_size])]
    rw [show addDataLoop 100 ⟨0, 5, true, true⟩ [⟨-1, false⟩] =
        some (0, ⟨0, 5, true, false⟩, []) from by decide]
    rfl
  exact ⟨hadd,
    (addData_fatal_write_accepted ⟨0, 100, 1000000⟩ 5 5 0 false true 5 [⟨-1, false⟩]
      ⟨true, 0, 0, true, true, 5⟩ (by decide)
      (by norm_num [GetBufferLevel, calc_chunk_size]) hadd).1⟩

/-! ## Picture acquisition (`CAMLCodec::DequeueBuffer` lines 2627-2652,
`CAMLCodec::GetPicture` lines 2654-2712)

`m_cur_pts`/`m_last_pts` are `uint64` timestamps; `DVD_NOPTS_VALUE` is
modelled as `Option.none`.  The dequeue ioctl, buffer level, drain flag and
wall-clock timeout are oracle inputs. -/

structure PtsState where
  cur : Option Nat
  last : Option Nat
deriving DecidableEq

/-- `DequeueBuffer` success path (lines 2634-2645): `m_last_pts = m_cur_pts`
then `m_cur_pts` is rebuilt from the dequeued `v4l2` timestamp. -/
def DequeueBuffer (s : PtsState) (ts : Nat) : PtsState := ⟨some ts, s.cur⟩

/-- `OpenDecoder` (line 1864) resets `m_cur_pts` only; `m_last_pts` retains
its constructor/Reset value. -/
def OpenDecoderPts (s : PtsState) : PtsState := ⟨none, s.last⟩

/-- Result of the `VIDIOC_DQBUF` ioctl: a timestamped buffer, `EAGAIN`, or
another `errno`. -/
inductive DequeueRes
  | ok (ts : Nat)
  | eagain
  | fatal (e : Nat)
deriving DecidableEq

inductive VCReturn
  | picture
  | eof
  | vcnone
  | flushed
  | buffer
  | error
deriving DecidableEq

/-- `video_rate * DVD_TIME_BASE / UNIT_FREQ` (line 2675), with
`DVD_TIME_BASE = 1000000` and the amcodec `UNIT_FREQ = 96000`. -/
def nominalDuration (video_rate : Nat) : ℚ := (video_rate : ℚ) * 1000000 / 96000

/-- Oracle inputs of one `GetPicture` poll: session flags, the freshly
computed buffer level, the dequeue result and the timeout test
`elapsed_since_last_frame > m_decoder_timeout`. -/
structure GetPictureIn where
  opened : Bool
  drain : Bool
  ready : Bool
  streambuffer : Bool
  level : ℚ
  minLevel : ℚ
  dq : DequeueRes
  timedOut : Bool
  video_rate : Nat

/-- `CAMLCodec::GetPicture` (lines 2654-2712), restricted to the return
value, the PTS state and the reported `iDuration` (`some` only on the
`VC_PICTURE` path).  The `&&` chain at line 2666 only runs `DequeueBuffer`
when the earlier conjuncts hold, so `ret` stays `EAGAIN` otherwise. -/
def GetPicture (i : GetPictureIn) (s : PtsState) : VCReturn × PtsState × Option ℚ :=
  if i.opened = false then (.error, s, none)
  else
    let tryDq : Bool := (!i.drain) && i.ready && decide (i.level > i.minLevel)
    match tryDq, i.dq with
    | true, .ok ts =>
      let s' := DequeueBuffer s ts
      let dur : ℚ :=
        match s'.last with
        | none => nominalDuration i.video_rate
        | some l => ((((ts : ℤ) - (l : ℤ)) % (2 ^ 64 : ℤ) : ℤ) : ℚ)
      (.picture, s', some dur)
    | tq, dq =>
      let retEagain : Bool :=
        match tq, dq with
        | true, .fatal _ => false
        | _, _ => true
      if i.drain then (.eof, s, none)
      else if i.level > (if i.streambuffer then (100 : ℚ) else 10) then (.vcnone, s, none)
      else if retEagain = false ∨ i.timedOut then (.flushed, s, none)
      else (.buffer, s, none)

/-- The `VC_PICTURE` branch in closed form. -/
lemma getPicture_success (i : GetPictureIn) (s : PtsState) (ts : Nat)
    (ho : i.opened = true) (hd : i.drain = false) (hr : i.ready = true)
    (hl : i.level > i.minLevel) (hq : i.dq = .ok ts) :
    GetPicture i s = (.picture, ⟨some ts, s.cur⟩,
      some (match s.cur with
        | none => nominalDuration i.video_rate
        | some l => ((((ts : ℤ) - (l : ℤ)) % (2 ^ 64 : ℤ) : ℤ) : ℚ))) := by
  unfold GetPicture
  rw [ho, hd, hr, hq]
  simp only [Bool.not_false, Bool.true_and, decide_eq_true hl]
  rfl

/-! ### Claim C6 -/

/-- Claim C6: after `Open` (`m_cur_pts = DVD_NOPTS_VALUE`), the first
successful dequeue reports the nominal frame-rate-derived duration
(`video_rate * DVD_TIME_BASE / UNIT_FREQ`), and a second successful dequeue
with timestamps `T1` then `T2 > T1` reports exactly `T2 - T1`. -/
theorem getPicture_duration_from_dequeue (s0 : PtsState) (i1 i2 : GetPictureIn)
    (T1 T2 : Nat) (h0 : s0.cur = none) (hT : T1 < T2) (hup : T2 < 2 ^ 64)
    (ho1 : i1.opened = true) (hd1 : i1.drain = false) (hr1 : i1.ready = true)
    (hl1 : i1.level > i1.minLevel) (hq1 : i1.dq = .ok T1)
    (ho2 : i2.opened = true) (hd2 : i2.drain = false) (hr2 : i2.ready = true)
    (hl2 : i2.level > i2.minLevel) (hq2 : i2.dq = .ok T2) :
    (GetPicture i1 s0).1 = .picture ∧
    (GetPicture i1 s0).2.2 = some (nominalDuration i1.video_rate) ∧
    (GetPicture i2 (GetPicture i1 s0).2.1).1 = .picture ∧
    (GetPicture i2 (GetPicture i1 s0).2.1).2.2 = some ((T2 : ℚ) - (T1 : ℚ)) := by
  rw [getPicture_success i1 s0 T1 ho1 hd1 hr1 hl1 hq1]
  dsimp only
  rw [h0]
  rw [getPicture_success i2 ⟨some T1, none⟩ T2 ho2 hd2 hr2 hl2 hq2]
  refine ⟨rfl, rfl, rfl, ?_⟩
  dsimp only
  congr 1
  have hmod : ((T2 : ℤ) - (T1 : ℤ)) % (2 ^ 64 : ℤ) = (T2 : ℤ) - (T1 : ℤ) := by
    apply Int.emod_eq_of_lt <;> omega
  rw [hmod]
  push_cast
  ring

/-- Witness for C6 at timestamps 10 then 25 with a declared rate of 2880. -/
theorem getPicture_duration_from_dequeue_witness :
    (GetPicture ⟨true, false, true, false, 50, 5, .ok 10, false, 2880⟩ ⟨none, none⟩).2.2 =
      some (nominalDuration 2880) ∧
    (GetPicture ⟨true, false, true, false, 50, 5, .ok 25, false, 2880⟩
        (GetPicture ⟨true, false, true, false, 50, 5, .ok 10, false, 2880⟩
          ⟨none, none⟩).2.1).2.2 = some ((25 : ℚ) - (10 : ℚ)) := by
  have h := getPicture_duration_from_dequeue ⟨none, none⟩
    ⟨true, false, true, false, 50, 5, .ok 10, false, 2880⟩
    ⟨true, false, true, false, 50, 5, .ok 25, false, 2880⟩
    10 25 rfl (by omega) (by norm_num) rfl rfl rfl (by norm_num) rfl
    rfl rfl rfl (by norm_num) rfl
  exact ⟨h.2.1, h.2.2.2⟩

/-! ## WMV3 header synthesis (`wmv3_write_header`, lines 1357-1408) -/

/-- Splitting a value into its stored high/low bytes recovers it mod 2^16. -/
lemma highlow_byte (w : Nat) :
    ((w >>> 8) &&& 0xff) * 256 + (w &&& 0xff) = w % 65536 := by
  have h2 : (w >>> 8) &&& 0xff = (w >>> 8) % 256 := Nat.and_pow_two_sub_one_eq_mod (w >>> 8) 8
  have h3 : w &&& 0xff = w % 256 := Nat.and_pow_two_sub_one_eq_mod w 8
  have h1 : w >>> 8 = w / 256 := by rw [Nat.shiftRight_eq_div_pow]
  rw [h2, h3, h1]
  omega

/-- The synthesized WMV3 sequence header bytes (lines 1363-1399): start code
`00 00 01 10`, the big-endian `data_len = extrasize + 4` spread over bytes
5/7/8 with `0x88` separators, `0xff` filler, the additive checksum of bytes
4..15 stored twice (bytes 16-21, `0x88` separators), 16-bit big-endian width
and height, then the raw extradata.  `hdr->size = extrasize + 26`. -/
def wmv3_write_header (width height : Nat) (extradata : List Nat) : List Nat :=
  let data_len := extradata.length + 4
  let p0 : List Nat :=
    [0, 0, 1, 0x10,
     0, (data_len >>> 16) &&& 0xff, 0x88, (data_len >>> 8) &&& 0xff, data_len &&& 0xff, 0x88,
     0xff, 0xff, 0x88, 0xff, 0xff, 0x88]
  let check_sum := ((p0.drop 4).take 12).sum
  p0 ++ [(check_sum >>> 8) &&& 0xff, check_sum &&& 0xff, 0x88,
         (check_sum >>> 8) &&& 0xff, check_sum &&& 0xff, 0x88,
         (width >>> 8) &&& 0xff, width &&& 0xff, (height >>> 8) &&& 0xff, height &&& 0xff]
    ++ extradata

/-! ### Claim C8 -/

/-- Claim C8 (amended): for extradata of N bytes the WMV3 header is a
26+N-byte structure (22 fixed-layout bytes, then 4 bytes of 16-bit
big-endian width and height, then the N raw extradata bytes); the 16-bit
checksum at bytes 16-17 equals the additive sum mod 65536 of header bytes
4..15 and is stored twice with `0x88` separator bytes. -/
theorem wmv3_header_layout (width height : Nat) (extradata : List Nat) :
    (wmv3_write_header width height extradata).length = 26 + extradata.length ∧
    ((wmv3_write_header width height extradata).getD 16 0 * 256 +
        (wmv3_write_header width height extradata).getD 17 0 =
      (((wmv3_write_header width height extradata).drop 4).take 12).sum % 65536) ∧
    (wmv3_write_header width height extradata).getD 18 0 = 0x88 ∧
    (wmv3_write_header width height extradata).getD 19 0 =
      (wmv3_write_header width height extradata).getD 16 0 ∧
    (wmv3_write_header width height extradata).getD 20 0 =
      (wmv3_write_header width height extradata).getD 17 0 ∧
    (wmv3_write_header width height extradata).getD 21 0 = 0x88 ∧
    ((wmv3_write_header width height extradata).getD 22 0 * 256 +
      (wmv3_write_header width height extradata).getD 23 0 = width % 65536) ∧
    ((wmv3_write_header width height extradata).getD 24 0 * 256 +
      (wmv3_write_header width height extradata).getD 25 0 = height % 65536) ∧
    (wmv3_write_header width height extradata).drop 26 = extradata := by
  refine ⟨?_, highlow_byte _, rfl, rfl, rfl, rfl, highlow_byte width, highlow_byte height, rfl⟩
  unfold wmv3_write_header
  dsimp only
  rw [List.length_append, List.length_append]
  rfl

/-- Claim C8, counterexample to the claim as stated: with empty extradata
(N = 0) the synthesized header has 26 bytes, not 22 + N = 22. -/
theorem wmv3_header_not_22 :
    (wmv3_write_header 1920 1080 []).length = 26 ∧ (26 : Nat) ≠ 22 + 0 := by decide

/-! ## MJPEG header synthesis (`mjpeg_data_prefeeding` lines 758-804,
`mjpeg_write_header` lines 806-818) -/

/-- The constant `mjpeg_addon_data` table (lines 760-794): SOI marker
`FF D8` followed by a DHT segment (`FF C4`, length `0x01A2`) holding the
default JPEG Huffman tables. -/
def mjpeg_addon_data : List Nat :=
  [255, 216, 255, 196, 1, 162, 0, 0, 1, 5, 1, 1, 1, 1, 1, 1, 0, 0, 0, 0, 0, 0, 0, 0, 1, 2,
   3, 4, 5, 6, 7, 8, 9, 10, 11, 1, 0, 3, 1, 1, 1, 1, 1, 1, 1, 1, 1, 0, 0, 0, 0, 0, 0, 1, 2,
   3, 4, 5, 6, 7, 8, 9, 10, 11, 16, 0, 2, 1, 3, 3, 2, 4, 3, 5, 5, 4, 4, 0, 0, 1, 125, 1, 2,
   3, 0, 4, 17, 5, 18, 33, 49, 65, 6, 19, 81, 97, 7, 34, 113, 20, 50, 129, 145, 161, 8, 35,
   66, 177, 193, 21, 82, 209, 240, 36, 51, 98, 114, 130, 9, 10, 22, 23, 24, 25, 26, 37, 38,
   39, 40, 41, 42, 52, 53, 54, 55, 56, 57, 58, 67, 68, 69, 70, 71, 72, 73, 74, 83, 84, 85,
   86, 87, 88, 89, 90, 99, 100, 101, 102, 103, 104, 105, 106, 115, 116, 117, 118, 119, 120,
   121, 122, 131, 132, 133, 134, 135, 136, 137, 138, 146, 147, 148, 149, 150, 151, 152, 153,
   154, 162, 163, 164, 165, 166, 167, 168, 169, 170, 178, 179, 180, 181, 182, 183, 184, 185,
   186, 194, 195, 196, 197, 198, 199, 200, 201, 202, 210, 211, 212, 213, 214, 215, 216, 217,
   218, 225, 226, 227, 228, 229, 230, 231, 232, 233, 234, 241, 242, 243, 244, 245, 246, 247,
   248, 249, 250, 17, 0, 2, 1, 2, 4, 4, 3, 4, 7, 5, 4, 4, 0, 1, 2, 119, 0, 1, 2, 3, 17, 4,
   5, 33, 49, 6, 18, 65, 81, 7, 97, 113, 19, 34, 50, 129, 8, 20, 66, 145, 161, 177, 193, 9,
   35, 51, 82, 240, 21, 98, 114, 209, 10, 22, 36, 52, 225, 37, 241, 23, 24, 25, 26, 38, 39,
   40, 41, 42, 53, 54, 55, 56, 57, 58, 67, 68, 69, 70, 71, 72, 73, 74, 83, 84, 85, 86, 87,
   88, 89, 90, 99, 100, 101, 102, 103, 104, 105, 106, 115, 116, 117, 118, 119, 120, 121,
   122, 130, 131, 132, 133, 134, 135, 136, 137, 138, 146, 147, 148, 149, 150, 151, 152, 153,
   154, 162, 163, 164, 165, 166, 167, 168, 169, 170, 178, 179, 180, 181, 182, 183, 184, 185,
   186, 194, 195, 196, 197, 198, 199, 200, 201, 202, 210, 211, 212, 213, 214, 215, 216, 217,
   218, 226, 227, 228, 229, 230, 231, 232, 233, 234, 242, 243, 244, 245, 246, 247, 248, 249,
   250]

/-- `mjpeg_write_header` fills the header buffer from `mjpeg_data_prefeeding`,
which copies `mjpeg_addon_data` verbatim; the stream parameters and
extradata are never read, so the result is a function that ignores its
input. -/
def mjpeg_write_header (extradata : List Nat) : List Nat := mjpeg_addon_data

/-! ### Claim C9 -/

set_option maxRecDepth 4000 in
/-- Claim C9 (amended): the MJPEG header prepended before the first frame is
the fixed 422-byte `mjpeg_addon_data` blob (SOI + default Huffman tables),
independent of the input stream. -/
theorem mjpeg_header_fixed (e1 e2 : List Nat) :
    mjpeg_write_header e1 = mjpeg_write_header e2 ∧
    mjpeg_write_header e1 = mjpeg_addon_data ∧
    (mjpeg_write_header e1).length = 422 :=
  ⟨rfl, rfl, show mjpeg_addon_data.length = 422 by decide⟩

set_option maxRecDepth 4000 in
/-- Claim C9, counterexample to the claim as stated: the blob has 422 bytes,
not 624. -/
theorem mjpeg_header_not_624 :
    mjpeg_addon_data.length = 422 ∧ mjpeg_addon_data.length ≠ 624 := by decide

/-! ## AV1 OBU re-packaging (`av1_parser_frame` lines 982-1186,
`av1_add_frame_dec_info` lines 1188-1217)

`av1_parser_frame` is invoked by `av1_add_frame_dec_info` with
`is_annexb = 0` and `meta_buf = NULL`; the model fixes that configuration
(the metadata OBU branch then only logs).  The OBU header/size parser
`aom_read_obu_header_and_size` comes from the bundled aom `obu_util`
sources, which are not part of this tree. -/

structure ObuHeader where
  type : Nat
  hsize : Nat
deriving DecidableEq

/-- Modelled from the spec: `aom_uleb_decode` (`aom_integer.h`, declared but
not defined under `src/`) decodes the AV1 variable-length-encoded size field
the spec refers to: little-endian base-128, at most 8 bytes, values above 32
bits rejected. -/
def aom_uleb_decode_go : List Nat → Nat → Nat → Option (Nat × Nat)
  | [], _, _ => none
  | b :: r, i, acc =>
    if 8 ≤ i then none
    else
      let acc2 := acc ||| ((b &&& 0x7f) <<< (i * 7))
      if b >>> 7 = 0 then
        if 4294967295 < acc2 then none else some (acc2, i + 1)
      else aom_uleb_decode_go r (i + 1) acc2

def aom_uleb_decode (data : List Nat) : Option (Nat × Nat) :=
  aom_uleb_decode_go data 0 0

/-- Modelled from the spec: the low-overhead OBU header read by
`aom_read_obu_header` (obu_util, not under `src/`), per the spec's
"self-delimited bitstream element": forbidden bit, 4-bit type, extension
flag, mandatory size-field flag (section-5 streams), zero reserved bit, and
an optional extension byte whose low 3 reserved bits must be zero. -/
def read_obu_header : List Nat → Option ObuHeader
  | [] => none
  | b :: rest =>
    if b >>> 7 ≠ 0 then none
    else if (b >>> 1) &&& 1 = 0 then none
    else if b &&& 1 ≠ 0 then none
    else if (b >>> 2) &&& 1 = 1 then
      match rest with
      | [] => none
      | b2 :: _ => if b2 &&& 0x7 ≠ 0 then none else some ⟨(b >>> 3) &&& 0xf, 2⟩
    else some ⟨(b >>> 3) &&& 0xf, 1⟩

/-- Modelled from the spec: `aom_read_obu_header_and_size` (obu_util, not
under `src/`), non-Annex-B form: OBU header first, then the leb128 payload
size; `bytes_read` is the header size plus the size-field length. -/
def aom_read_obu_header_and_size (data : List Nat) :
    Option (ObuHeader × Nat × Nat) :=
  match read_obu_header data with
  | none => none
  | some h =>
    match aom_uleb_decode (data.drop h.hsize) with
    | none => none
    | some (ps, lfs) => some (h, ps, h.hsize + lfs)

/-- Modelled from the spec: `aom_uleb_encode_fixed_size(obu_size, 4, 4, ...)`
(aom_integer, not under `src/`): 4 leb128 bytes, continuation bit set on all
but the last. -/
def aom_uleb_encode_fixed_size (v : Nat) : List Nat :=
  [(v &&& 0x7f) ||| 0x80, ((v >>> 7) &&& 0x7f) ||| 0x80,
   ((v >>> 14) &&& 0x7f) ||| 0x80, (v >>> 21) &&& 0x7f]

/-- 4-byte big-endian encoding, as written into `header[0..3]`. -/
def be32 (n : Nat) : List Nat :=
  [(n >>> 24) &&& 0xff, (n >>> 16) &&& 0xff, (n >>> 8) &&& 0xff, n &&& 0xff]

/-- The 20-byte unit prefix written per OBU in the non-Annex-B path (lines
995-1057): big-endian `obu_size + 4` (with `obu_size = bytes_read +
payload_size + 4`, line 1041), its byte-wise complement, the fixed template
bytes 8-15 (`00 00 00 01 41 4D 4C 56`), and the fixed-size leb128 of
`obu_size` at bytes 16-19. -/
def av1UnitHeader (obu_size : Nat) : List Nat :=
  be32 (obu_size + 4) ++ (be32 (obu_size + 4)).map (fun b => b ^^^ 0xff) ++
    [0x00, 0x00, 0x00, 0x01, 0x41, 0x4D, 0x4C, 0x56] ++
    aom_uleb_encode_fixed_size obu_size

/-- One re-emitted OBU: the `bytes_read`/`payload_size` pair returned by the
OBU parse, and the bytes copied to `dst_data` for it (20-byte prefix plus
the OBU itself, lines 1057-1060). -/
structure Av1Unit where
  bytesRead : Nat
  payloadSize : Nat
  emitted : List Nat
deriving DecidableEq

/-- The `while (!frame_decoding_finished)` loop of `av1_parser_frame`
(lines 1006-1183) with `is_annexb = 0`, `meta_buf = NULL`.  OBU types follow
the `obu_type_name` table: 1 sequence header, 2 temporal delimiter, 3 frame
header, 4 tile group, 5 metadata, 6 frame, 7 redundant frame header.  Each
iteration consumes `bytes_read + payload_size ≥ 1` input bytes, so the
`fuel = data.length + 1` supplied by `av1_parser_frame` never runs out;
`none` models the `return -1` parse failures.  The step result pairs
`frame_decoding_finished` with the updated `seen_frame_header`. -/
def av1LoopF : Nat → List Nat → Bool → Option (List Av1Unit)
  | 0, _, _ => none
  | fuel + 1, data, seen =>
    if data.length = 0 ∧ seen = false then some []
    else
      match aom_read_obu_header_and_size data with
      | none => none
      | some (h, ps, br) =>
        if data.length - br < ps then none
        else
          let unit : Av1Unit := ⟨br, ps, av1UnitHeader (br + ps + 4) ++ data.take (br + ps)⟩
          let step : Option (Bool × Bool) :=
            if h.type = 2 then some (false, false)
            else if h.type = 1 then (if seen then none else some (false, seen))
            else if h.type = 3 then
              (if data.length = br + ps then some (true, seen) else some (false, true))
            else if h.type = 7 then (if seen then some (false, seen) else none)
            else if h.type = 6 then
              (if seen then none
               else if data.length = br + ps then some (true, false) else some (false, seen))
            else if h.type = 4 then
              (if seen then
                (if data.length = br + ps then some (true, false) else some (false, seen))
               else none)
            else some (false, seen)
          match step with
          | none => none
          | some (true, _) => some [unit]
          | some (false, seen2) =>
            match av1LoopF fuel (data.drop (br + ps)) seen2 with
            | none => none
            | some us => some (unit :: us)

/-- `av1_parser_frame` (lines 982-1186) at its `av1_add_frame_dec_info` call
configuration, returning the list of re-emitted length-prefixed units. -/
def av1_parser_frame (data : List Nat) : Option (List Av1Unit) :=
  av1LoopF (data.length + 1) data false

lemma aom_uleb_decode_go_bounds (l : List Nat) :
    ∀ i acc v n, aom_uleb_decode_go l i acc = some (v, n) →
      i < n ∧ n - i ≤ l.length := by
  induction l with
  | nil => intro i acc v n h; simp [aom_uleb_decode_go] at h
  | cons b r ih =>
    intro i acc v n h
    rw [aom_uleb_decode_go] at h
    dsimp only at h
    by_cases h8 : 8 ≤ i
    · rw [if_pos h8] at h; cases h
    · rw [if_neg h8] at h
      by_cases hterm : b >>> 7 = 0
      · rw [if_pos hterm] at h
        by_cases hbig : 4294967295 < acc ||| (b &&& 0x7f) <<< (i * 7)
        · rw [if_pos hbig] at h; cases h
        · rw [if_neg hbig] at h
          injection h with h
          injection h with h1 h2
          subst h2
          simp only [List.length_cons]
          omega
      · rw [if_neg hterm] at h
        have := ih (i + 1) _ v n h
        simp only [List.length_cons]
        omega

lemma read_obu_header_bounds (data : List Nat) (h : ObuHeader)
    (he : read_obu_header data = some h) :
    1 ≤ h.hsize ∧ h.hsize ≤ data.length := by
  cases data with
  | nil => simp [read_obu_header] at he
  | cons b rest =>
    rw [read_obu_header.eq_def] at he
    dsimp only at he
    by_cases h1 : b >>> 7 ≠ 0
    · rw [if_pos h1] at he; cases he
    · rw [if_neg h1] at he
      by_cases h2 : (b >>> 1) &&& 1 = 0
      · rw [if_pos h2] at he; cases he
      · rw [if_neg h2] at he
        by_cases h3 : b &&& 1 ≠ 0
        · rw [if_pos h3] at he; cases he
        · rw [if_neg h3] at he
          by_cases h4 : (b >>> 2) &&& 1 = 1
          · rw [if_pos h4] at he
            cases rest with
            | nil => cases he
            | cons b2 r2 =>
              dsimp only at he
              by_cases h5 : b2 &&& 0x7 ≠ 0
              · rw [if_pos h5] at he; cases he
              · rw [if_neg h5] at he
                injection he with he
                subst he
                simp
          · rw [if_neg h4] at he
            injection he with he
            subst he
            simp

lemma aom_read_bounds (data : List Nat) (h : ObuHeader) (ps br : Nat)
    (he : aom_read_obu_header_and_size data = some (h, ps, br)) :
    1 ≤ br ∧ br ≤ data.length := by
  unfold aom_read_obu_header_and_size at he
  cases hh : read_obu_header data with
  | none => rw [hh] at he; cases he
  | some h0 =>
    rw [hh] at he
    dsimp only at he
    cases hu : aom_uleb_decode (data.drop h0.hsize) with
    | none => rw [hu] at he; cases he
    | some v =>
      obtain ⟨ps0, lfs⟩ := v
      rw [hu] at he
      dsimp only at he
      injection he with he
      injection he with he1 he2
      injection he2 with he2 he3
      have hb1 := read_obu_header_bounds data h0 hh
      have hb2 := aom_uleb_decode_go_bounds (data.drop h0.hsize) 0 0 ps0 lfs hu
      simp only [List.length_drop] at hb2
      omega

lemma av1LoopF_units (fuel : Nat) :
    ∀ (data : List Nat) (seen : Bool) (us : List Av1Unit),
      av1LoopF fuel data seen = some us →
      ∀ u ∈ us,
        u.emitted.take 4 = be32 (u.bytesRead + u.payloadSize + 8) ∧
        (u.emitted.drop 4).take 4 = (u.emitted.take 4).map (fun b => b ^^^ 0xff) ∧
        u.emitted.length = 20 + (u.bytesRead + u.payloadSize) := by
  induction fuel with
  | zero =>
    intro data seen us h
    simp [av1LoopF] at h
  | succ fuel ih =>
    intro data seen us h
    rw [av1LoopF] at h
    by_cases h0 : data.length = 0 ∧ seen = false
    · rw [if_pos h0] at h
      injection h with h
      subst h
      intro u hu
      simp at hu
    · rw [if_neg h0] at h
      cases hr : aom_read_obu_header_and_size data with
      | none => rw [hr] at h; cases h
      | some v =>
        obtain ⟨hd, ps, br⟩ := v
        rw [hr] at h
        dsimp only at h
        by_cases hguard : data.length - br < ps
        · rw [if_pos hguard] at h; cases h
        · rw [if_neg hguard] at h
          have hbr := aom_read_bounds data hd ps br hr
          have hlen : br + ps ≤ data.length := by omega
          have hfacts :
              (av1UnitHeader (br + ps + 4) ++ data.take (br + ps)).take 4 =
                be32 (br + ps + 8) ∧
              ((av1UnitHeader (br + ps + 4) ++ data.take (br + ps)).drop 4).take 4 =
                ((av1UnitHeader (br + ps + 4) ++ data.take (br + ps)).take 4).map
                  (fun b => b ^^^ 0xff) ∧
              (av1UnitHeader (br + ps + 4) ++ data.take (br + ps)).length =
                20 + (br + ps) := by
            refine ⟨rfl, rfl, ?_⟩
            simp only [List.length_append, List.length_take]
            have h20 : (av1UnitHeader (br + ps + 4)).length = 20 := rfl
            rw [h20]
            omega
          split at h
          · cases h
          · injection h with h
            subst h
            intro u hu
            rw [List.mem_singleton] at hu
            subst hu
            exact hfacts
          · rename_i seen2 hstep
            cases hrec : av1LoopF fuel (data.drop (br + ps)) seen2 with
            | none => rw [hrec] at h; cases h
            | some us2 =>
              rw [hrec] at h
              injection h with h
              subst h
              intro u hu
              rcases List.mem_cons.mp hu with hu | hu
              · subst hu
                exact hfacts
              · exact ih _ _ _ hrec u hu

/-! ### Claim C1 -/

/-- Claim C1 (amended): every packet that `av1_parser_frame` accepts is
re-emitted as exactly one length-prefixed unit per parsed OBU (the returned
list), and each unit's 4-byte big-endian length field holds
`bytes_read + payload_size + 8` (the code writes `obu_size + 4` with
`obu_size = bytes_read + payload_size + 4`), not `bytes_read +
payload_size`; each of the 4 complement bytes following the length field
equals the corresponding length byte XOR 0xFF, and each unit is 20 bytes of
prefix plus the OBU bytes. -/
theorem av1_unit_length_fields (data : List Nat) (us : List Av1Unit)
    (h : av1_parser_frame data = some us) :
    ∀ u ∈ us,
      u.emitted.take 4 = be32 (u.bytesRead + u.payloadSize + 8) ∧
      (u.emitted.drop 4).take 4 = (u.emitted.take 4).map (fun b => b ^^^ 0xff) ∧
      u.emitted.length = 20 + (u.bytesRead + u.payloadSize) :=
  av1LoopF_units (data.length + 1) data false us h

/-- Claim C1, counterexample to the claim as stated: a single well-formed
temporal-delimiter OBU (`bytes_read = 2`, `payload_size = 0`) is emitted
with length field `[0,0,0,10]`, not the `[0,0,0,2]` that `bytes_read +
payload_size` would require. -/
theorem av1_length_field_not_bytes_read :
    av1_parser_frame [0x12, 0x00] =
      some [⟨2, 0, av1UnitHeader 6 ++ [0x12, 0x00]⟩] ∧
    (av1UnitHeader 6 ++ [0x12, 0x00]).take 4 = [0, 0, 0, 10] ∧
    [0, 0, 0, 10] ≠ be32 (2 + 0) := by decide

/-- Witness for the amended C1 theorem at a one-OBU frame packet
(`OBU_FRAME`, 2-byte payload). -/
theorem av1_unit_length_fields_witness :
    (av1_parser_frame [0x32, 0x02, 0xAA, 0xBB] =
      some [⟨2, 2, av1UnitHeader 8 ++ [0x32, 0x02, 0xAA, 0xBB]⟩]) ∧
    (⟨2, 2, av1UnitHeader 8 ++ [0x32, 0x02, 0xAA, 0xBB]⟩ : Av1Unit).emitted.take 4 =
      be32 (2 + 2 + 8) :=
  ⟨by decide,
   (av1_unit_length_fields [0x32, 0x02, 0xAA, 0xBB]
     [⟨2, 2, av1UnitHeader 8 ++ [0x32, 0x02, 0xAA, 0xBB]⟩] (by decide)
     ⟨2, 2, av1UnitHeader 8 ++ [0x32, 0x02, 0xAA, 0xBB]⟩ (by decide)).1⟩

end AMLCodec
